import Mathlib

/-!
Shallow embedding of the API access and session layer of the storefront client
(`src/lib/apiClient.ts`): the localStorage-backed session store, the `apiRequest`
executor, and the endpoint groups (`auth`, `products`, `cart`, `orders`).
The browser collaborators the layer drives — localStorage, JS object merge,
`URLSearchParams`, `JSON.stringify` / `JSON.parse` — are modelled explicitly below
so that the claims about header construction, query encoding and session
round-trips can be settled against executable definitions.
-/

/-! ## Key-value maps: localStorage and JS object semantics

localStorage and plain JS objects (used for headers) are both string-keyed maps
where assigning an existing key updates it in place and a new key is appended.
We model both as association lists. -/

/-- Browser-local key-value store (localStorage) / plain JS string-valued object. -/
abbrev Store := List (String × String)

/-- Model of `localStorage.getItem` / JS property read: the binding of the key,
if any. -/
def assocGet : Store → String → Option String
  | [], _ => none
  | p :: ps, k => if p.1 = k then some p.2 else assocGet ps k

/-- Model of `localStorage.setItem` / JS property assignment: update the key in
place when it exists (keeping its position, as JS objects do), else append. -/
def assocSet : Store → String → String → Store
  | [], k, v => [(k, v)]
  | p :: ps, k, v => if p.1 = k then (k, v) :: ps else p :: assocSet ps k v

/-- Model of `localStorage.removeItem`: drop the binding of the key. -/
def assocRemove (s : Store) (k : String) : Store :=
  s.filter (fun p => p.1 ≠ k)

/-- JS truthiness of a `string | null` value: `null` and `""` are falsy. -/
def jsTruthyStr (v : Option String) : Bool :=
  match v with
  | none => false
  | some s => s ≠ ""

/-- JS `x || y` for `x : string | undefined`: `y` when `x` is absent or empty. -/
def jsOrString (x : Option String) (y : String) : String :=
  match x with
  | none => y
  | some s => if s = "" then y else s

/-! ## JSON values, `JSON.stringify` and `JSON.parse`

`apiClient` serializes request bodies and the persisted user with
`JSON.stringify` and reads the persisted user back with `JSON.parse`; these
builtins are modelled on a JSON value type (numbers restricted to integers,
which covers every value this layer ever stores). -/

/-- A JSON value. -/
inductive Json where
  | null : Json
  | bool : Bool → Json
  | num : Int → Json
  | str : String → Json
  | arr : List Json → Json
  | obj : List (String × Json) → Json

/-- Lowercase hex digit, as produced by `JSON.stringify` in `\u00xy` escapes. -/
def hexDigitL (n : Nat) : Char :=
  if n < 10 then Char.ofNat (48 + n) else Char.ofNat (87 + n)

/-- Escaping of one string character as `JSON.stringify` does it: quote, backslash and the
control characters; `\b \t \n \f \r` get short escapes, other controls `\u00xy`. -/
def escChar (c : Char) : List Char :=
  if c = '"' then ['\\', '"']
  else if c = '\\' then ['\\', '\\']
  else if c = Char.ofNat 8 then ['\\', 'b']
  else if c = Char.ofNat 9 then ['\\', 't']
  else if c = Char.ofNat 10 then ['\\', 'n']
  else if c = Char.ofNat 12 then ['\\', 'f']
  else if c = Char.ofNat 13 then ['\\', 'r']
  else if c.toNat < 32 then
    ['\\', 'u', '0', '0', hexDigitL (c.toNat / 16), hexDigitL (c.toNat % 16)]
  else [c]

/-- Escape a whole string (as a character list). -/
def escString (cs : List Char) : List Char :=
  cs.foldr (fun c acc => escChar c ++ acc) []

mutual

/-- Printer behind `JSON.stringify` (no indentation: members separated by bare
`,`/`:`), producing a character list. -/
def printJson : Json → List Char
  | .null => "null".data
  | .bool b => if b then "true".data else "false".data
  | .num n => (toString n).data
  | .str s => '"' :: (escString s.data ++ ['"'])
  | .arr xs => '[' :: (printArr xs ++ [']'])
  | .obj kvs => '{' :: (printObj kvs ++ ['}'])

/-- Array elements, comma-separated. -/
def printArr : List Json → List Char
  | [] => []
  | [x] => printJson x
  | x :: xs => printJson x ++ ',' :: printArr xs

/-- Object members, comma-separated, each `"key":value`. -/
def printObj : List (String × Json) → List Char
  | [] => []
  | [kv] => '"' :: (escString kv.1.data ++ '"' :: ':' :: printJson kv.2)
  | kv :: kvs => ('"' :: (escString kv.1.data ++ '"' :: ':' :: printJson kv.2)) ++ ',' :: printObj kvs

end

/-- Builtin `JSON.stringify` as a string-to-string function. -/
def Json.stringify (j : Json) : String := ⟨printJson j⟩

/-- JSON whitespace (`space`, tab, line feed, carriage return). -/
def isWsChar (c : Char) : Bool :=
  c = ' ' || c = Char.ofNat 9 || c = Char.ofNat 10 || c = Char.ofNat 13

/-- Skip leading JSON whitespace. -/
def skipWs : List Char → List Char
  | [] => []
  | c :: cs => if isWsChar c then skipWs cs else c :: cs

/-- Value of one hex digit (either case), as accepted in `\uXXXX` escapes. -/
def hexVal (c : Char) : Option Nat :=
  if 48 ≤ c.toNat ∧ c.toNat ≤ 57 then some (c.toNat - 48)
  else if 97 ≤ c.toNat ∧ c.toNat ≤ 102 then some (c.toNat - 87)
  else if 65 ≤ c.toNat ∧ c.toNat ≤ 70 then some (c.toNat - 55)
  else none

/-- Resolve a one-character JSON string escape (`\"`, `\\`, `\/`, `\b`, `\t`,
`\n`, `\f`, `\r`). -/
def unescChar (e : Char) : Option Char :=
  if e = '"' then some '"'
  else if e = '\\' then some '\\'
  else if e = '/' then some '/'
  else if e = 'b' then some (Char.ofNat 8)
  else if e = 't' then some (Char.ofNat 9)
  else if e = 'n' then some (Char.ofNat 10)
  else if e = 'f' then some (Char.ofNat 12)
  else if e = 'r' then some (Char.ofNat 13)
  else none

/-- Parse the body of a JSON string literal (after the opening quote) up to and
including the closing quote; bare control characters are invalid. Returns the
content and the remaining input. -/
def parseStrBody : List Char → Option (List Char × List Char)
  | [] => none
  | c :: cs =>
    if c = '"' then some ([], cs)
    else if c = '\\' then
      match cs with
      | [] => none
      | e :: cs2 =>
        if e = 'u' then
          match cs2 with
          | h1 :: h2 :: h3 :: h4 :: cs3 =>
            match hexVal h1, hexVal h2, hexVal h3, hexVal h4 with
            | some a, some b, some c2, some d =>
              (parseStrBody cs3).map
                (fun r => (Char.ofNat (((a * 16 + b) * 16 + c2) * 16 + d) :: r.1, r.2))
            | _, _, _, _ => none
          | _ => none
        else
          match unescChar e with
          | some c2 => (parseStrBody cs2).map (fun r => (c2 :: r.1, r.2))
          | none => none
    else if c.toNat < 32 then none
    else (parseStrBody cs).map (fun r => (c :: r.1, r.2))

/-- Match an exact sequence of characters, returning the rest of the input. -/
def stripPre : List Char → List Char → Option (List Char)
  | [], cs => some cs
  | p :: ps, c :: cs => if p = c then stripPre ps cs else none
  | _ :: _, [] => none

/-- Longest leading run of decimal digits, plus the remaining input. -/
def takeDigits : List Char → List Char × List Char
  | [] => ([], [])
  | c :: cs =>
    if c.isDigit then
      let r := takeDigits cs
      (c :: r.1, r.2)
    else ([], c :: cs)

/-- Decimal value of a digit run. -/
def digitsToNat (ds : List Char) : Nat :=
  ds.foldl (fun acc c => acc * 10 + (c.toNat - 48)) 0

mutual

/-- Parse one JSON value; `fuel` bounds the recursion and is always ample at the
top level. Numbers are integer literals (the only numbers this layer meets). -/
def parseVal : Nat → List Char → Option (Json × List Char)
  | 0, _ => none
  | fuel + 1, cs =>
    match skipWs cs with
    | [] => none
    | c :: rest =>
      if c = '"' then (parseStrBody rest).map (fun r => (.str ⟨r.1⟩, r.2))
      else if c = '{' then
        match skipWs rest with
        | [] => none
        | d :: rest2 =>
          if d = '}' then some (.obj [], rest2)
          else (parseMembers fuel (d :: rest2)).map (fun r => (.obj r.1, r.2))
      else if c = '[' then
        match skipWs rest with
        | [] => none
        | d :: rest2 =>
          if d = ']' then some (.arr [], rest2)
          else (parseElems fuel (d :: rest2)).map (fun r => (.arr r.1, r.2))
      else if c = 'n' then
        match stripPre ['u', 'l', 'l'] rest with
        | some rest2 => some (.null, rest2)
        | none => none
      else if c = 't' then
        match stripPre ['r', 'u', 'e'] rest with
        | some rest2 => some (.bool true, rest2)
        | none => none
      else if c = 'f' then
        match stripPre ['a', 'l', 's', 'e'] rest with
        | some rest2 => some (.bool false, rest2)
        | none => none
      else if c = '-' then
        match takeDigits rest with
        | ([], _) => none
        | (ds, rest2) => some (.num (-(digitsToNat ds : Int)), rest2)
      else if c.isDigit then
        let r := takeDigits (c :: rest)
        some (.num (digitsToNat r.1), r.2)
      else none
termination_by structural fuel _ => fuel

/-- Parse the elements of a non-empty array up to and including `]`. -/
def parseElems : Nat → List Char → Option (List Json × List Char)
  | 0, _ => none
  | fuel + 1, cs =>
    match parseVal fuel cs with
    | none => none
    | some (j, rest) =>
      match skipWs rest with
      | [] => none
      | d :: rest2 =>
        if d = ',' then (parseElems fuel rest2).map (fun r => (j :: r.1, r.2))
        else if d = ']' then some ([j], rest2)
        else none
termination_by structural fuel _ => fuel

/-- Parse the members of a non-empty object up to and including `}`. -/
def parseMembers : Nat → List Char → Option (List (String × Json) × List Char)
  | 0, _ => none
  | fuel + 1, cs =>
    match skipWs cs with
    | [] => none
    | c :: rest =>
      if c = '"' then
        match parseStrBody rest with
        | none => none
        | some (k, rest2) =>
          match skipWs rest2 with
          | [] => none
          | d :: rest3 =>
            if d = ':' then
              match parseVal fuel rest3 with
              | none => none
              | some (v, rest4) =>
                match skipWs rest4 with
                | [] => none
                | d2 :: rest5 =>
                  if d2 = ',' then
                    (parseMembers fuel rest5).map (fun r => ((⟨k⟩, v) :: r.1, r.2))
                  else if d2 = '}' then some ([(⟨k⟩, v)], rest5)
                  else none
            else none
      else none
termination_by structural fuel _ => fuel

end

/-- Builtin `JSON.parse`; `none` models the thrown `SyntaxError` on invalid input. -/
def jsonParse (s : String) : Option Json :=
  match parseVal (s.length + 1) s.data with
  | some (j, rest) => if skipWs rest = [] then some j else none
  | none => none

/-! ## URLSearchParams

`products.list` builds its query string with `URLSearchParams.append` /
`.toString()`; the serializer is `application/x-www-form-urlencoded`: space
becomes `+`, ASCII alphanumerics and `*-._` pass through, and every other
character is percent-encoded (uppercase hex) over its UTF-8 bytes. -/

/-- Uppercase hex digit, as produced by percent-encoding. -/
def hexDigitU (n : Nat) : Char :=
  if n < 10 then Char.ofNat (48 + n) else Char.ofNat (55 + n)

/-- UTF-8 bytes of a code point. -/
def utf8Bytes (n : Nat) : List Nat :=
  if n < 128 then [n]
  else if n < 2048 then [192 + n / 64, 128 + n % 64]
  else if n < 65536 then [224 + n / 4096, 128 + n / 64 % 64, 128 + n % 64]
  else [240 + n / 262144, 128 + n / 4096 % 64, 128 + n / 64 % 64, 128 + n % 64]

/-- Form-encode one character. -/
def formEncodeChar (c : Char) : List Char :=
  if c = ' ' then ['+']
  else if c.isAlphanum || c = '*' || c = '-' || c = '.' || c = '_' then [c]
  else (utf8Bytes c.toNat).foldr
    (fun b acc => '%' :: hexDigitU (b / 16) :: hexDigitU (b % 16) :: acc) []

/-- Form-encode a string. -/
def formEncode (s : String) : String :=
  ⟨s.data.foldr (fun c acc => formEncodeChar c ++ acc) []⟩

/-- Serializer `URLSearchParams.toString()` over appended `(key, value)` pairs. -/
def searchParamsToString (q : List (String × String)) : String :=
  String.intercalate "&" (q.map (fun p => formEncode p.1 ++ "=" ++ formEncode p.2))

/-! ## The request executor (`apiRequest`) -/

/-- The fixed backend host (`API_BASE_URL` in the source). -/
def API_BASE_URL : String := "https://smarthubsec.com.ng/api"

/-- The `RequestInit` fields `apiRequest` and its callers use. -/
structure RequestOptions where
  method : Option String := none
  body : Option String := none
  headers : Store := []

/-- The outbound request handed to `fetch`. -/
structure BuiltRequest where
  url : String
  method : Option String
  body : Option String
  headers : Store

/-- The response envelope, as parsed from the backend's JSON body. -/
structure Envelope where
  success : Bool
  message : Option String := none
  data : Option Json := none

/-- The object literal `{'Content-Type': 'application/json', ...options.headers}`:
spread merge, last write wins. -/
def mergeHeaders (callerHeaders : Store) : Store :=
  callerHeaders.foldl (fun acc p => assocSet acc p.1 p.2)
    [("Content-Type", "application/json")]

/-- The header object as `apiRequest` builds it: the spread merge above, then —
after the merge — `headers['Authorization'] = 'Bearer ' + token` when the token
is truthy. -/
def buildHeaders (store : Store) (callerHeaders : Store) : Store :=
  let headers := mergeHeaders callerHeaders
  match assocGet store "auth_token" with
  | some t => if t = "" then headers else assocSet headers "Authorization" ("Bearer " ++ t)
  | none => headers

/-- Source `getAuthToken`: read the persisted token. -/
def getAuthToken (store : Store) : Option String :=
  assocGet store "auth_token"

/-- The request `apiRequest` sends: base URL plus endpoint, the caller's options
with the headers replaced by the merged header object. -/
def builtRequest (store : Store) (endpoint : String) (options : RequestOptions) :
    BuiltRequest :=
  { url := API_BASE_URL ++ endpoint
    method := options.method
    body := options.body
    headers := buildHeaders store options.headers }

/-- Source `apiRequest`: build the request, obtain the backend's parsed JSON envelope
(`respond` stands for the network round-trip plus `response.json()`), throw
`Error(data.message || 'API request failed')` when `success` is falsy, and
otherwise return the full envelope. -/
def apiRequest (store : Store) (endpoint : String) (options : RequestOptions)
    (respond : BuiltRequest → Envelope) : Except String Envelope :=
  let data := respond (builtRequest store endpoint options)
  if data.success then .ok data
  else .error (jsOrString data.message "API request failed")

/-! ## Endpoint groups

Stateful operations pass the session store explicitly; an operation that the
source leaves the store untouched by returns it unchanged. -/

/-- Payload of `auth.register`. -/
structure RegisterData where
  email : String
  password : String
  full_name : Option String := none

/-- Payload of `auth.login`. -/
structure LoginData where
  email : String
  password : String

/-- Body of `auth.register`: `JSON.stringify` of the payload (absent optional fields are
omitted, as `JSON.stringify` drops `undefined` members). -/
def registerBody (d : RegisterData) : String :=
  Json.stringify (.obj ([("email", .str d.email), ("password", .str d.password)] ++
    (match d.full_name with
     | some f => [("full_name", .str f)]
     | none => [])))

/-- Body of `auth.login`: `JSON.stringify` of the payload. -/
def loginBody (d : LoginData) : String :=
  Json.stringify (.obj [("email", .str d.email), ("password", .str d.password)])

/-- Source `auth.register`: POST `/auth/register.php`; does not touch the store. -/
def auth.register (store : Store) (d : RegisterData) (respond : BuiltRequest → Envelope) :
    Except String Envelope × Store :=
  (apiRequest store "/auth/register.php"
    { method := some "POST", body := some (registerBody d) } respond, store)

/-- Source `auth.login`: POST `/auth/login.php`; does not touch the store. -/
def auth.login (store : Store) (d : LoginData) (respond : BuiltRequest → Envelope) :
    Except String Envelope × Store :=
  (apiRequest store "/auth/login.php"
    { method := some "POST", body := some (loginBody d) } respond, store)

/-- Source `auth.logout`: remove the token and user keys from the store. -/
def auth.logout (store : Store) : Store :=
  assocRemove (assocRemove store "auth_token") "user"

/-- Source `auth.getCurrentUser`, i.e. `userStr ? JSON.parse(userStr) : null`. An absent or
empty (falsy) persisted value yields `null`; otherwise `JSON.parse` runs and a
malformed value makes it throw (`Except.error`). -/
def auth.getCurrentUser (store : Store) : Except String (Option Json) :=
  match assocGet store "user" with
  | none => .ok none
  | some userStr =>
    if userStr = "" then .ok none
    else
      match jsonParse userStr with
      | some j => .ok (some j)
      | none => .error "SyntaxError"

/-- Source `auth.isAuthenticated`, i.e. `!!getAuthToken()`. -/
def auth.isAuthenticated (store : Store) : Bool :=
  jsTruthyStr (getAuthToken store)

/-- Filters accepted by `products.list`. -/
structure ListParams where
  category : Option String := none
  featured : Option Bool := none
  search : Option String := none
  limit : Option Int := none
  offset : Option Int := none

/-- The `URLSearchParams` pairs `products.list` appends: each filter only when
truthy (`featured` encodes as the literal `"1"`, numbers via `toString()`). -/
def products.listQuery (p : ListParams) : List (String × String) :=
  let q : List (String × String) := []
  let q := match p.category with
    | some c => if c = "" then q else q ++ [("category", c)]
    | none => q
  let q := match p.featured with
    | some b => if b then q ++ [("featured", "1")] else q
    | none => q
  let q := match p.search with
    | some s => if s = "" then q else q ++ [("search", s)]
    | none => q
  let q := match p.limit with
    | some n => if n = 0 then q else q ++ [("limit", toString n)]
    | none => q
  match p.offset with
  | some n => if n = 0 then q else q ++ [("offset", toString n)]
  | none => q

/-- The endpoint `products.list` targets: `/products/list.php`, with `?` and the
query string only when the query string is non-empty (truthy). -/
def products.listEndpoint (p : ListParams) : String :=
  let queryString := searchParamsToString (products.listQuery p)
  "/products/list.php" ++ (if queryString = "" then "" else "?" ++ queryString)

/-- Source `products.list`: GET the filtered list endpoint. -/
def products.list (store : Store) (p : ListParams) (respond : BuiltRequest → Envelope) :
    Except String Envelope :=
  apiRequest store (products.listEndpoint p) { method := some "GET" } respond

/-- Payload of `orders.create`. -/
structure OrderData where
  shipping_address : String
  shipping_city : String
  shipping_postal_code : String
  shipping_country : String
  payment_method : String
  notes : Option String := none

/-- Body of `orders.create`: `JSON.stringify` of the payload. -/
def orderBody (d : OrderData) : String :=
  Json.stringify (.obj ([("shipping_address", .str d.shipping_address),
    ("shipping_city", .str d.shipping_city),
    ("shipping_postal_code", .str d.shipping_postal_code),
    ("shipping_country", .str d.shipping_country),
    ("payment_method", .str d.payment_method)] ++
    (match d.notes with
     | some n => [("notes", .str n)]
     | none => [])))

/-- Source `orders.create`: POST `/orders/create.php` with the JSON order payload. -/
def orders.create (store : Store) (d : OrderData) (respond : BuiltRequest → Envelope) :
    Except String Envelope :=
  apiRequest store "/orders/create.php"
    { method := some "POST", body := some (orderBody d) } respond

/-! ## The session userRecord and `set_session`

`apiClient.ts` exposes only the reads of the persisted session (`getAuthToken`,
`auth.getCurrentUser`); the write lives in UI code outside this repository
slice. -/

/-- The user summary persisted with the session (`full_name` is nullable,
`role` optional). -/
structure UserSummary where
  id : String
  email : String
  full_name : Option String := none
  role : Option String := none

/-- The JSON value `JSON.stringify` serializes a `UserSummary` to: `full_name`
becomes `null` when absent, an absent optional `role` member is dropped. -/
def userToJson (u : UserSummary) : Json :=
  .obj ([("id", .str u.id), ("email", .str u.email),
    ("full_name", match u.full_name with
      | some f => .str f
      | none => .null)] ++
    (match u.role with
     | some r => [("role", .str r)]
     | none => []))

/-- Modelled from the spec: `set_session(token, user)` persists both fields —
the raw token string under the token key and the JSON-serialized user summary
under the user key. The write itself is absent from this repository slice
(only the reads are in `apiClient.ts`), so this follows §4.1 of the spec. -/
def setSession (store : Store) (token : String) (user : UserSummary) : Store :=
  assocSet (assocSet store "auth_token" token) "user" (Json.stringify (userToJson user))

/-- Values that are a JSON string or `null` — the only member values the
persisted user summary ever contains. -/
def FlatVal (j : Json) : Prop := j = .null ∨ ∃ s, j = .str s

/-! ## Lemmas about the key-value store -/

theorem assocGet_set_self (s : Store) (k v : String) :
    assocGet (assocSet s k v) k = some v := by
  induction s with
  | nil => simp [assocSet, assocGet]
  | cons p ps ih =>
    by_cases h : p.1 = k
    · simp [assocSet, assocGet, h]
    · simp [assocSet, assocGet, h, ih]

theorem assocGet_set_ne (s : Store) (k k' v : String) (h : k' ≠ k) :
    assocGet (assocSet s k' v) k = assocGet s k := by
  induction s with
  | nil => simp [assocSet, assocGet, h]
  | cons p ps ih =>
    by_cases hp : p.1 = k'
    · simp [assocSet, assocGet, hp, h]
    · simp [assocSet, assocGet, hp, ih]

theorem assocGet_remove_self (s : Store) (k : String) :
    assocGet (assocRemove s k) k = none := by
  induction s with
  | nil => rfl
  | cons p ps ih =>
    simp only [assocRemove, ne_eq, decide_not] at ih ⊢
    by_cases h : p.1 = k
    · simp [List.filter_cons, h, ih]
    · simp [assocGet, List.filter_cons, h, ih]

theorem assocGet_remove_ne (s : Store) (k k' : String) (h : k' ≠ k) :
    assocGet (assocRemove s k') k = assocGet s k := by
  induction s with
  | nil => rfl
  | cons p ps ih =>
    simp only [assocRemove, ne_eq, decide_not] at ih ⊢
    by_cases hp : p.1 = k'
    · simp [assocGet, List.filter_cons, hp, h, ih]
    · simp [assocGet, List.filter_cons, hp, ih]

/-! ## Round-trip of the JSON printer and parser

Only objects whose member values are strings or `null` ever round-trip through
the session store (the persisted user summary), so the round-trip lemmas are
proved for that shape, over arbitrary strings. -/

theorem skipWs_cons {c : Char} (h : isWsChar c = false) (cs : List Char) :
    skipWs (c :: cs) = c :: cs := by
  simp [skipWs, h]

theorem hexVal_hexDigitL : ∀ m, m < 16 → hexVal (hexDigitL m) = some m := by decide

theorem hexVal_zero : hexVal '0' = some 0 := by decide

theorem parseStrBody_escString (cs rest : List Char) :
    parseStrBody (escString cs ++ '"' :: rest) = some (cs, rest) := by
  induction cs with
  | nil =>
    show parseStrBody ('"' :: rest) = some ([], rest)
    rw [parseStrBody.eq_def]; simp
  | cons c cs ih =>
    have hesc : escString (c :: cs) = escChar c ++ escString cs := by
      simp [escString]
    rw [hesc, List.append_assoc]
    by_cases h1 : c = '"'
    · subst h1; rw [escChar]; simp only [if_pos rfl]
      rw [parseStrBody.eq_def]; simp [unescChar, ih]
    by_cases h2 : c = '\\'
    · subst h2; rw [escChar]; simp only [reduceIte]
      rw [parseStrBody.eq_def]; simp [unescChar, ih]
    by_cases h3 : c = Char.ofNat 8
    · subst h3; rw [escChar]; simp only [reduceIte]
      rw [parseStrBody.eq_def]; simp [unescChar, ih]
    by_cases h4 : c = Char.ofNat 9
    · subst h4; rw [escChar]; simp only [reduceIte]
      rw [parseStrBody.eq_def]; simp [unescChar, ih]
    by_cases h5 : c = Char.ofNat 10
    · subst h5; rw [escChar]; simp only [reduceIte]
      rw [parseStrBody.eq_def]; simp [unescChar, ih]
    by_cases h6 : c = Char.ofNat 12
    · subst h6; rw [escChar]; simp only [reduceIte]
      rw [parseStrBody.eq_def]; simp [unescChar, ih]
    by_cases h7 : c = Char.ofNat 13
    · subst h7; rw [escChar]; simp only [reduceIte]
      rw [parseStrBody.eq_def]; simp [unescChar, ih]
    have hu : escChar c = if c.toNat < 32 then
        ['\\', 'u', '0', '0', hexDigitL (c.toNat / 16), hexDigitL (c.toNat % 16)]
      else [c] := by
      rw [escChar, if_neg h1, if_neg h2, if_neg h3, if_neg h4, if_neg h5, if_neg h6,
        if_neg h7]
    by_cases h8 : c.toNat < 32
    · have hdiv : c.toNat / 16 < 16 := by omega
      have hmod : c.toNat % 16 < 16 := Nat.mod_lt _ (by omega)
      rw [hu, if_pos h8]
      rw [parseStrBody.eq_def]
      simp [hexVal_zero, hexVal_hexDigitL _ hdiv, hexVal_hexDigitL _ hmod, ih]
      have hval : c.toNat / 16 * 16 + c.toNat % 16 = c.toNat := by omega
      rw [hval, Char.ofNat_toNat]
    · rw [hu, if_neg h8]
      show parseStrBody (c :: (escString cs ++ '"' :: rest)) = _
      rw [parseStrBody.eq_def]
      simp [h1, h2, h8, ih]

theorem parseVal_null (f : Nat) (rest : List Char) :
    parseVal (f + 1) ('n' :: 'u' :: 'l' :: 'l' :: rest) = some (.null, rest) := by
  simp [parseVal, skipWs, isWsChar, stripPre]

theorem parseVal_str (f : Nat) (s : String) (rest : List Char) :
    parseVal (f + 1) ('"' :: (escString s.data ++ '"' :: rest)) = some (.str s, rest) := by
  simp [parseVal, skipWs, isWsChar, parseStrBody_escString]

theorem parseVal_flat (v : Json) (hv : FlatVal v) (f : Nat) (rest : List Char) :
    parseVal (f + 1) (printJson v ++ rest) = some (v, rest) := by
  rcases hv with h | ⟨s, h⟩ <;> subst h
  · rw [show printJson .null = ['n', 'u', 'l', 'l'] from by
      rw [show printJson .null = "null".data from by simp [printJson]]]
    simpa using parseVal_null f rest
  · rw [show printJson (.str s) = '"' :: (escString s.data ++ ['"']) from by simp [printJson]]
    rw [show ('"' :: (escString s.data ++ ['"'])) ++ rest
        = '"' :: (escString s.data ++ '"' :: rest) from by simp]
    exact parseVal_str f s rest

theorem parseMembers_printObj (kvs : List (String × Json)) :
    ∀ (f : Nat) (rest : List Char), kvs ≠ [] → (∀ kv ∈ kvs, FlatVal kv.2) →
      kvs.length + 1 ≤ f →
      parseMembers f (printObj kvs ++ '}' :: rest) = some (kvs, rest) := by
  induction kvs with
  | nil => intro f rest h _ _; exact absurd rfl h
  | cons kv tail ih =>
    intro f rest _ hflat hf
    have hv : FlatVal kv.2 := hflat kv (by simp)
    have hlen : (kv :: tail).length = tail.length + 1 := rfl
    rw [hlen] at hf
    obtain ⟨f2, rfl⟩ : ∃ f2, f = f2 + 1 + 1 := ⟨f - 2, by omega⟩
    cases tail with
    | nil =>
      rw [show printObj [kv] = '"' :: (escString kv.1.data ++ '"' :: ':' :: printJson kv.2)
          from by simp [printObj]]
      rw [show ('"' :: (escString kv.1.data ++ '"' :: ':' :: printJson kv.2)) ++ '}' :: rest
          = '"' :: (escString kv.1.data ++ '"' :: ':' :: (printJson kv.2 ++ '}' :: rest))
          from by simp]
      simp [parseMembers, skipWs, isWsChar, parseStrBody_escString,
        parseVal_flat kv.2 hv f2]
    | cons kv2 tl2 =>
      rw [show printObj (kv :: kv2 :: tl2)
          = ('"' :: (escString kv.1.data ++ '"' :: ':' :: printJson kv.2))
            ++ ',' :: printObj (kv2 :: tl2) from by simp [printObj]]
      rw [show (('"' :: (escString kv.1.data ++ '"' :: ':' :: printJson kv.2))
            ++ ',' :: printObj (kv2 :: tl2)) ++ '}' :: rest
          = '"' :: (escString kv.1.data ++ '"' :: ':'
            :: (printJson kv.2 ++ ',' :: (printObj (kv2 :: tl2) ++ '}' :: rest)))
          from by simp]
      have hih := ih (f2 + 1) rest (by simp) (fun x hx => hflat x (by simp [hx]))
        (by simp at hf ⊢; omega)
      rw [parseMembers.eq_def]
      simp [skipWs, isWsChar, parseStrBody_escString, parseVal_flat kv.2 hv f2, hih]

theorem length_le_printObj (kvs : List (String × Json)) :
    kvs.length ≤ (printObj kvs).length + 1 := by
  induction kvs with
  | nil => simp
  | cons kv tail ih =>
    cases tail with
    | nil => simp [printObj]
    | cons kv2 tl2 =>
      rw [show printObj (kv :: kv2 :: tl2)
          = ('"' :: (escString kv.1.data ++ '"' :: ':' :: printJson kv.2))
            ++ ',' :: printObj (kv2 :: tl2) from by simp [printObj]]
      simp only [List.length_cons, List.length_append] at ih ⊢
      omega

theorem printObj_cons_head (kv : String × Json) (tail : List (String × Json)) :
    ∃ tl, printObj (kv :: tail) = '"' :: tl := by
  cases tail with
  | nil =>
    exact ⟨escString kv.1.data ++ '"' :: ':' :: printJson kv.2, by simp [printObj]⟩
  | cons kv2 tl2 =>
    exact ⟨(escString kv.1.data ++ '"' :: ':' :: printJson kv.2) ++ ',' :: printObj (kv2 :: tl2),
      by simp [printObj]⟩

theorem jsonParse_stringify_obj (kvs : List (String × Json)) (hne : kvs ≠ [])
    (hflat : ∀ kv ∈ kvs, FlatVal kv.2) :
    jsonParse (Json.stringify (.obj kvs)) = some (.obj kvs) := by
  obtain ⟨kv, tail, rfl⟩ : ∃ kv tail, kvs = kv :: tail := by
    cases kvs with
    | nil => exact absurd rfl hne
    | cons a b => exact ⟨a, b, rfl⟩
  have hdata : (Json.stringify (.obj (kv :: tail))).data
      = '{' :: (printObj (kv :: tail) ++ ['}']) := by
    simp [Json.stringify, printJson]
  have hlen : (Json.stringify (.obj (kv :: tail))).length
      = (printObj (kv :: tail)).length + 2 := by
    show (Json.stringify (.obj (kv :: tail))).data.length = _
    rw [hdata]; simp
  obtain ⟨tl, htl⟩ := printObj_cons_head kv tail
  have hmem := parseMembers_printObj (kv :: tail) ((printObj (kv :: tail)).length + 2) []
    (by simp) hflat (by have := length_le_printObj (kv :: tail); omega)
  rw [show printObj (kv :: tail) ++ '}' :: [] = '"' :: (tl ++ ['}']) from by
    rw [htl]; simp] at hmem
  rw [htl] at hmem
  simp only [List.length_cons] at hmem
  rw [jsonParse, hdata, hlen, htl]
  rw [parseVal.eq_def]
  simp [skipWs, isWsChar, hmem]

theorem stringify_obj_ne_empty (kvs : List (String × Json)) :
    Json.stringify (.obj kvs) ≠ "" := by
  intro h
  have hd := congrArg String.data h
  simp [Json.stringify, printJson] at hd

theorem userToJson_shape (u : UserSummary) :
    ∃ kvs, userToJson u = Json.obj kvs ∧ kvs ≠ [] ∧ ∀ kv ∈ kvs, FlatVal kv.2 := by
  refine ⟨_, rfl, by simp, ?_⟩
  intro kv hkv
  rcases List.mem_append.mp hkv with h | h
  · simp only [List.mem_cons, List.mem_singleton] at h
    rcases h with rfl | rfl | rfl | h
    · exact Or.inr ⟨_, rfl⟩
    · exact Or.inr ⟨_, rfl⟩
    · cases u.full_name with
      | some fn => exact Or.inr ⟨_, rfl⟩
      | none => exact Or.inl rfl
    · exact absurd h (List.not_mem_nil kv)
  · cases hr : u.role with
    | some r =>
      rw [hr] at h
      simp only [List.mem_singleton] at h
      subst h
      exact Or.inr ⟨_, rfl⟩
    | none => rw [hr] at h; simp at h

theorem jsonParse_stringify_user (u : UserSummary) :
    jsonParse (Json.stringify (userToJson u)) = some (userToJson u) := by
  obtain ⟨kvs, heq, hne, hflat⟩ := userToJson_shape u
  rw [heq]
  exact jsonParse_stringify_obj kvs hne hflat

theorem stringify_user_ne_empty (u : UserSummary) :
    Json.stringify (userToJson u) ≠ "" := by
  obtain ⟨kvs, heq, _, _⟩ := userToJson_shape u
  rw [heq]
  exact stringify_obj_ne_empty kvs

/-! ## Claims -/

/-- Claim C1, counterexample: the claim as stated fails when the envelope's
`message` field is present but empty — the executor then rejects with the
fallback string `API request failed`, not with the (empty) `message` field. -/
theorem apiRequest_empty_message_cex :
    apiRequest [] "/orders/create.php" {}
        (fun _ => { success := false, message := some "" })
      = .error "API request failed" ∧ ("API request failed" : String) ≠ "" :=
  ⟨rfl, by decide⟩

/-- Claim C1 (amended): when the envelope's `success` is falsy the executor
rejects with the envelope's `message`, falling back to `API request failed`
when `message` is absent *or empty* (JS `||` treats both as falsy); in
particular `orders.create` against a backend answering
`success:false, message:"Cart is empty"` rejects with exactly `Cart is empty`. -/
theorem apiRequest_failure_error_message (store : Store) (endpoint : String)
    (options : RequestOptions) (respond : BuiltRequest → Envelope)
    (h : (respond (builtRequest store endpoint options)).success = false) :
    apiRequest store endpoint options respond
        = .error (jsOrString (respond (builtRequest store endpoint options)).message
            "API request failed") ∧
      orders.create []
          { shipping_address := "221B Baker St", shipping_city := "London",
            shipping_postal_code := "NW1 6XE", shipping_country := "UK",
            payment_method := "card" }
          (fun _ => { success := false, message := some "Cart is empty" })
        = .error "Cart is empty" := by
  refine ⟨?_, rfl⟩
  simp [apiRequest, h]

/-- Claim C1, witness: the amended theorem applied at a concrete failing call. -/
theorem apiRequest_failure_error_message_witness :
    apiRequest [] "/cart/add.php" {}
        (fun _ => { success := false, message := some "Out of stock" })
      = .error "Out of stock" :=
  (apiRequest_failure_error_message [] "/cart/add.php" {}
    (fun _ => { success := false, message := some "Out of stock" }) rfl).1

/-- Claim C2: when the parsed envelope's `success` is truthy the executor
returns the full envelope — `success`, `message` and `data` included — not
just the `data` payload. -/
theorem apiRequest_success_returns_envelope (store : Store) (endpoint : String)
    (options : RequestOptions) (respond : BuiltRequest → Envelope)
    (h : (respond (builtRequest store endpoint options)).success = true) :
    apiRequest store endpoint options respond
      = .ok (respond (builtRequest store endpoint options)) := by
  simp [apiRequest, h]

/-- Claim C2, witness: a concrete successful call resolves to the whole
envelope, its `message` and `data` fields intact. -/
theorem apiRequest_success_returns_envelope_witness :
    apiRequest [] "/cart/list.php" {}
        (fun _ => { success := true, message := some "Added", data := some (.str "payload") })
      = .ok { success := true, message := some "Added", data := some (.str "payload") } :=
  apiRequest_success_returns_envelope [] "/cart/list.php" {}
    (fun _ => { success := true, message := some "Added", data := some (.str "payload") }) rfl

/-- Claim C3, counterexample: with no token in the store, the Authorization
header is *not* omitted entirely — a caller-supplied Authorization header
survives the merge and is sent. -/
theorem authorization_omitted_cex :
    getAuthToken ([] : Store) = none ∧
      assocGet (builtRequest [] "/cart/list.php"
          { headers := [("Authorization", "X")] }).headers "Authorization" = some "X" :=
  ⟨rfl, rfl⟩

/-- Claim C3 (amended): when the store holds a non-empty token the built
request's Authorization header is `Bearer <token>` (whatever the caller
supplied); when the token is absent or empty the executor adds no
Authorization header — the headers are exactly the caller-default merge, so
the header is present only if the caller supplied one. -/
theorem authorization_header_behavior (store : Store) (endpoint : String)
    (options : RequestOptions) :
    (∀ t, getAuthToken store = some t → t ≠ "" →
      assocGet (builtRequest store endpoint options).headers "Authorization"
        = some ("Bearer " ++ t)) ∧
    (jsTruthyStr (getAuthToken store) = false →
      (builtRequest store endpoint options).headers = mergeHeaders options.headers) := by
  constructor
  · intro t ht hne
    show assocGet (buildHeaders store options.headers) "Authorization" = _
    rw [getAuthToken] at ht
    rw [buildHeaders, ht]
    simp [hne, assocGet_set_self]
  · intro hf
    rw [getAuthToken] at hf
    show buildHeaders store options.headers = mergeHeaders options.headers
    rw [buildHeaders]
    cases h : assocGet store "auth_token" with
    | none => simp
    | some t =>
      rw [h] at hf
      simp [jsTruthyStr] at hf
      simp [hf]

/-- Claim C3, witness: both amended branches at concrete stores. -/
theorem authorization_header_behavior_witness :
    assocGet (builtRequest [("auth_token", "tok-abc")] "/cart/add.php" {}).headers
        "Authorization" = some "Bearer tok-abc" ∧
      (builtRequest [] "/products/list.php" {}).headers = mergeHeaders [] :=
  ⟨(authorization_header_behavior [("auth_token", "tok-abc")] "/cart/add.php" {}).1
      "tok-abc" rfl (by decide),
   (authorization_header_behavior [] "/products/list.php" {}).2 rfl⟩

/-- Claim C4, counterexample: a caller-supplied Authorization header cannot
override the token default — the token assignment happens after the spread
merge, so the built header is `Bearer tok`, not the caller's value. -/
theorem caller_override_authorization_cex :
    assocGet (buildHeaders [("auth_token", "tok")] [("Authorization", "evil")])
        "Authorization" = some "Bearer tok" ∧ ("Bearer tok" : String) ≠ "evil" :=
  ⟨rfl, by decide⟩

/-- Claim C4 (amended): the merge is last-write-wins, so a caller header may
override the `Content-Type` default; the Authorization header is written after
the merge, so with a non-empty token it equals `Bearer <token>` regardless of
caller headers. -/
theorem header_merge_behavior (store : Store) (hs : Store) (v t : String) :
    assocGet (buildHeaders store (hs ++ [("Content-Type", v)])) "Content-Type" = some v ∧
    (getAuthToken store = some t → t ≠ "" →
      assocGet (buildHeaders store hs) "Authorization" = some ("Bearer " ++ t)) := by
  constructor
  · have hmerge : mergeHeaders (hs ++ [("Content-Type", v)])
        = assocSet (mergeHeaders hs) "Content-Type" v := by
      simp [mergeHeaders, List.foldl_append]
    rw [buildHeaders, hmerge]
    cases h : assocGet store "auth_token" with
    | none => simp [assocGet_set_self]
    | some t' =>
      by_cases ht' : t' = ""
      · simp [ht', assocGet_set_self]
      · simp only [ht', reduceIte]
        rw [assocGet_set_ne _ _ _ _ (by decide : ("Authorization" : String) ≠ "Content-Type")]
        exact assocGet_set_self _ _ _
  · intro ht hne
    rw [getAuthToken] at ht
    rw [buildHeaders, ht]
    simp [hne, assocGet_set_self]

/-- Claim C4, witness: the amended theorem at a concrete store and header list. -/
theorem header_merge_behavior_witness :
    assocGet (buildHeaders [("auth_token", "tok")] ([] ++ [("Content-Type", "text/plain")]))
        "Content-Type" = some "text/plain" ∧
      assocGet (buildHeaders [("auth_token", "tok")] []) "Authorization"
        = some ("Bearer " ++ "tok") :=
  ⟨(header_merge_behavior [("auth_token", "tok")] [] "text/plain" "tok").1,
   (header_merge_behavior [("auth_token", "tok")] [] "text/plain" "tok").2 rfl (by decide)⟩

/-- Claim C5: `products.list` filters encode as query parameters in the
source's append order and absent filters produce no key: `featured: true`
yields exactly `featured=1` and nothing else, `limit: 10, offset: 20` yields
exactly `limit=10&offset=20`. -/
theorem products_list_query_encoding :
    products.listEndpoint { featured := some true } = "/products/list.php?featured=1" ∧
    (products.listQuery { featured := some true }).map Prod.fst = ["featured"] ∧
    products.listEndpoint { limit := some 10, offset := some 20 }
      = "/products/list.php?limit=10&offset=20" ∧
    (products.listQuery { limit := some 10, offset := some 20 }).map Prod.fst
      = ["limit", "offset"] :=
  ⟨rfl, rfl, rfl, rfl⟩

/-- Claim C6: `isAuthenticated` is true exactly when a non-empty token is
persisted, and right after `auth.logout` it is false. -/
theorem isAuthenticated_iff_nonempty_token (store : Store) :
    (auth.isAuthenticated store = true ↔
      ∃ t, assocGet store "auth_token" = some t ∧ t ≠ "") ∧
    auth.isAuthenticated (auth.logout store) = false := by
  constructor
  · rw [auth.isAuthenticated, getAuthToken]
    cases h : assocGet store "auth_token" with
    | none => simp [h, jsTruthyStr]
    | some t => simp [h, jsTruthyStr]
  · rw [auth.isAuthenticated, getAuthToken, auth.logout]
    rw [assocGet_remove_ne _ _ _ (by decide : ("user" : String) ≠ "auth_token"),
      assocGet_remove_self]
    rfl

/-- Claim C7: `auth.login` and `auth.register` never write the session store,
whatever the backend answers; `auth.logout` removes both the token key and the
user key. -/
theorem auth_store_frame (store : Store) (rd : RegisterData) (ld : LoginData)
    (respond1 respond2 : BuiltRequest → Envelope) :
    (auth.register store rd respond1).2 = store ∧
    (auth.login store ld respond2).2 = store ∧
    assocGet (auth.logout store) "auth_token" = none ∧
    assocGet (auth.logout store) "user" = none := by
  refine ⟨rfl, rfl, ?_, ?_⟩
  · rw [auth.logout]
    rw [assocGet_remove_ne _ _ _ (by decide : ("user" : String) ≠ "auth_token")]
    exact assocGet_remove_self _ _
  · rw [auth.logout]
    exact assocGet_remove_self _ _

/-- Claim C8, counterexample: a persisted malformed user value makes
`getCurrentUser` throw (the `JSON.parse` SyntaxError propagates) — the source
does not swallow malformed JSON. -/
theorem getCurrentUser_malformed_cex :
    auth.getCurrentUser [("user", "\x7b")] = .error "SyntaxError" := rfl

/-- Claim C8 (amended): `getCurrentUser` returns `none` when no user value is
persisted or the persisted value is the empty string (falsy, so `JSON.parse`
is never reached); when the persisted value is non-empty and malformed, the
operation throws — `JSON.parse`'s exception propagates unguarded. -/
theorem getCurrentUser_behavior (store : Store) :
    (assocGet store "user" = none → auth.getCurrentUser store = .ok none) ∧
    (assocGet store "user" = some "" → auth.getCurrentUser store = .ok none) ∧
    (∀ v, assocGet store "user" = some v → v ≠ "" → jsonParse v = none →
      auth.getCurrentUser store = .error "SyntaxError") := by
  refine ⟨fun h => ?_, fun h => ?_, fun v h hne hp => ?_⟩
  · rw [auth.getCurrentUser, h]
  · rw [auth.getCurrentUser, h]
    simp
  · rw [auth.getCurrentUser, h]
    simp [hne, hp]

/-- Claim C8, witness: the three amended branches at concrete stores. -/
theorem getCurrentUser_behavior_witness :
    auth.getCurrentUser [] = .ok none ∧
      auth.getCurrentUser [("user", "")] = .ok none ∧
      auth.getCurrentUser [("user", "not json")] = .error "SyntaxError" :=
  ⟨(getCurrentUser_behavior []).1 rfl,
   (getCurrentUser_behavior [("user", "")]).2.1 rfl,
   (getCurrentUser_behavior [("user", "not json")]).2.2 "not json" rfl (by decide) rfl⟩

/-- Claim C9: persisting a session with `set_session(token, user)` and reading
it back returns the identical token and a user record deep-equal to the one
stored (`JSON.parse` inverts `JSON.stringify` on the user summary). -/
theorem setSession_roundtrip (store : Store) (token : String) (u : UserSummary) :
    getAuthToken (setSession store token u) = some token ∧
    auth.getCurrentUser (setSession store token u) = .ok (some (userToJson u)) := by
  constructor
  · rw [getAuthToken, setSession]
    rw [assocGet_set_ne _ _ _ _ (by decide : ("user" : String) ≠ "auth_token")]
    exact assocGet_set_self _ _ _
  · rw [auth.getCurrentUser, setSession, assocGet_set_self]
    simp [stringify_user_ne_empty u, jsonParse_stringify_user u]

/-- Claim C10: supplied-but-falsy filters are dropped from the `products.list`
query — `featured: false`, `limit: 0`, `offset: 0` and empty `category` or
`search` encode nothing, and the falsy concrete calls hit exactly
`/products/list.php` with no `?`. -/
theorem products_list_falsy_filters_omitted :
    (∀ c s l o, products.listQuery ⟨c, some false, s, l, o⟩
        = products.listQuery ⟨c, none, s, l, o⟩) ∧
    (∀ c f s l, products.listQuery ⟨c, f, s, l, some 0⟩
        = products.listQuery ⟨c, f, s, l, none⟩) ∧
    (∀ c f s o, products.listQuery ⟨c, f, s, some 0, o⟩
        = products.listQuery ⟨c, f, s, none, o⟩) ∧
    (∀ f s l o, products.listQuery ⟨some "", f, s, l, o⟩
        = products.listQuery ⟨none, f, s, l, o⟩) ∧
    (∀ c f l o, products.listQuery ⟨c, f, some "", l, o⟩
        = products.listQuery ⟨c, f, none, l, o⟩) ∧
    products.listEndpoint { featured := some false } = "/products/list.php" ∧
    products.listEndpoint { offset := some 0 } = "/products/list.php" ∧
    products.listEndpoint {} = "/products/list.php" :=
  ⟨fun _ _ _ _ => rfl, fun _ _ _ _ => rfl, fun _ _ _ _ => rfl, fun _ _ _ _ => rfl,
   fun _ _ _ _ => rfl, rfl, rfl, rfl⟩
